import Mathlib

/-!
Shallow embedding of the vehicle storage program (src/main.py).

Modelling conventions:
- Python numbers (int and float alike) are embedded as rationals.
- Python exceptions are embedded as an error type in the Except monad:
  InvalidValueError becomes VErr.invalidValue; the structural exceptions
  raised while decoding (KeyError, TypeError, ValueError) become
  VErr.structural, mirroring the spec's missing/malformed-data class.
- A parsed JSON document is embedded as the JValue tree; a parsed XML
  document as the XElem tree.  File access is abstracted by an Option
  input: none stands for FileNotFoundError, some d for a parsed file.
-/

deriving instance DecidableEq for Except

namespace Lab1

/-- Error classes of the program: InvalidValueError, and the structural
missing/malformed-data exceptions raised during decode. -/
inductive VErr where
  | invalidValue : VErr
  | structural : VErr
deriving DecidableEq, Repr

/-- Values of a parsed JSON document. -/
inductive JValue where
  | str (s : String)
  | num (q : ℚ)
  | bool (b : Bool)
  | arr (xs : List JValue)
  | obj (fields : List (String × JValue))

/-- Lookup of a key in a decoded mapping, first match. -/
def lookup (fields : List (String × JValue)) (k : String) : Option JValue :=
  match fields with
  | [] => none
  | (k₁, v) :: rest => if k₁ = k then some v else lookup rest k

/-- Python data[k]: KeyError when the key is absent. -/
def getField (d : List (String × JValue)) (k : String) : Except VErr JValue :=
  match lookup d k with
  | some v => .ok v
  | none => .error .structural

/-- Use of a decoded value as a string. -/
def asStr : JValue → Except VErr String
  | .str s => .ok s
  | _ => .error .structural

/-- Use of a decoded value as a number. -/
def asNum : JValue → Except VErr ℚ
  | .num q => .ok q
  | _ => .error .structural

/-- Use of a decoded value as a boolean. -/
def asBool : JValue → Except VErr Bool
  | .bool b => .ok b
  | _ => .error .structural

/-- Use of a decoded value as a nested mapping. -/
def asObj : JValue → Except VErr (List (String × JValue))
  | .obj d => .ok d
  | _ => .error .structural

/-- Use of a decoded value as a sequence. -/
def asArr : JValue → Except VErr (List JValue)
  | .arr xs => .ok xs
  | _ => .error .structural

/-- Python t == s for a decoded value t and a string literal s: false
whenever t is not a string. -/
def eqStr : JValue → String → Bool
  | .str t, s => t == s
  | _, _ => false

/-- Engine data. -/
structure Engine where
  engine_type : String
  power : ℚ
deriving DecidableEq, Repr

/-- Engine.__init__: raises InvalidValueError unless power > 0. -/
def Engine.init (engine_type : String) (power : ℚ) : Except VErr Engine :=
  if power ≤ 0 then .error .invalidValue
  else .ok ⟨engine_type, power⟩

def Engine.to_dict (e : Engine) : List (String × JValue) :=
  [("engine_type", .str e.engine_type), ("power", .num e.power)]

def Engine.from_dict (data : List (String × JValue)) : Except VErr Engine := do
  let t ← getField data "engine_type" >>= asStr
  let p ← getField data "power" >>= asNum
  Engine.init t p

/-- Transmission data. -/
structure Transmission where
  transmission_type : String
  gears : ℚ
deriving DecidableEq, Repr

/-- Transmission.__init__: raises InvalidValueError unless gears > 0. -/
def Transmission.init (transmission_type : String) (gears : ℚ) :
    Except VErr Transmission :=
  if gears ≤ 0 then .error .invalidValue
  else .ok ⟨transmission_type, gears⟩

def Transmission.to_dict (t : Transmission) : List (String × JValue) :=
  [("transmission_type", .str t.transmission_type), ("gears", .num t.gears)]

def Transmission.from_dict (data : List (String × JValue)) :
    Except VErr Transmission := do
  let t ← getField data "transmission_type" >>= asStr
  let g ← getField data "gears" >>= asNum
  Transmission.init t g

/-- Wheel data. -/
structure Wheel where
  size : ℚ
deriving DecidableEq, Repr

/-- Wheel.__init__: raises InvalidValueError unless size >= 10. -/
def Wheel.init (size : ℚ) : Except VErr Wheel :=
  if size < 10 then .error .invalidValue
  else .ok ⟨size⟩

def Wheel.to_dict (w : Wheel) : List (String × JValue) :=
  [("size", .num w.size)]

def Wheel.from_dict (data : List (String × JValue)) : Except VErr Wheel := do
  let s ← getField data "size" >>= asNum
  Wheel.init s

/-- The base fields shared by every vehicle variant. -/
structure VehicleBase where
  model : String
  engine : Engine
  transmission : Transmission
  wheels : List Wheel
deriving DecidableEq, Repr

/-- The closed, tag-discriminated vehicle variant set. -/
inductive Vehicle where
  | base (b : VehicleBase)
  | car (b : VehicleBase) (seats : ℚ)
  | electricCar (b : VehicleBase) (seats : ℚ) (battery_capacity : ℚ)
  | bus (b : VehicleBase) (capacity : ℚ) (double_decker : Bool)
  | motorcycle (b : VehicleBase) (moto_type : String)
deriving DecidableEq, Repr

/-- The base fields of any variant. -/
def Vehicle.baseOf : Vehicle → VehicleBase
  | .base b => b
  | .car b _ => b
  | .electricCar b _ _ => b
  | .bus b _ _ => b
  | .motorcycle b _ => b

/-- Python dict assignment d[k] = v: replace in place when the key is
present, append otherwise. -/
def setEntry (d : List (String × JValue)) (k : String) (v : JValue) :
    List (String × JValue) :=
  match d with
  | [] => [(k, v)]
  | (k₁, v₁) :: rest =>
    if k₁ = k then (k₁, v) :: rest else (k₁, v₁) :: setEntry rest k v

/-- Python dict.update. -/
def dictUpdate (d upd : List (String × JValue)) : List (String × JValue) :=
  upd.foldl (fun acc kv => setEntry acc kv.1 kv.2) d

/-- Vehicle.to_dict, the shared base encoding. -/
def VehicleBase.to_dict (b : VehicleBase) : List (String × JValue) :=
  [("type", .str "Vehicle"),
   ("model", .str b.model),
   ("engine", .obj b.engine.to_dict),
   ("transmission", .obj b.transmission.to_dict),
   ("wheels", .arr (b.wheels.map (fun w => .obj w.to_dict)))]

/-- Per-variant to_dict: the base encoding overlaid (dict.update) with the
discriminant tag and the variant-specific fields. -/
def Vehicle.to_dict : Vehicle → List (String × JValue)
  | .base b => b.to_dict
  | .car b seats => dictUpdate b.to_dict [("type", .str "Car"), ("seats", .num seats)]
  | .electricCar b seats batt =>
      dictUpdate (dictUpdate b.to_dict [("type", .str "Car"), ("seats", .num seats)])
        [("type", .str "ElectricCar"), ("battery_capacity", .num batt)]
  | .bus b cap dd =>
      dictUpdate b.to_dict
        [("type", .str "Bus"), ("capacity", .num cap), ("double_decker", .bool dd)]
  | .motorcycle b mt =>
      dictUpdate b.to_dict [("type", .str "Motorcycle"), ("moto_type", .str mt)]

/-- Vehicle.from_dict: the mandatory base fields, each through its own
from_dict and validating constructor. -/
def VehicleBase.from_dict (data : List (String × JValue)) :
    Except VErr VehicleBase := do
  let eo ← getField data "engine" >>= asObj
  let engine ← Engine.from_dict eo
  let tro ← getField data "transmission" >>= asObj
  let transmission ← Transmission.from_dict tro
  let wa ← getField data "wheels" >>= asArr
  let wheels ← wa.mapM (fun w => asObj w >>= Wheel.from_dict)
  let model ← getField data "model" >>= asStr
  return ⟨model, engine, transmission, wheels⟩

/-- Python data.get(k, dflt) used as a number. -/
def getNumOr (d : List (String × JValue)) (k : String) (dflt : ℚ) :
    Except VErr ℚ :=
  match lookup d k with
  | none => pure dflt
  | some v => asNum v

/-- Python data.get(k, dflt) used as a boolean. -/
def getBoolOr (d : List (String × JValue)) (k : String) (dflt : Bool) :
    Except VErr Bool :=
  match lookup d k with
  | none => pure dflt
  | some v => asBool v

/-- Python data.get(k, dflt) used as a string. -/
def getStrOr (d : List (String × JValue)) (k : String) (dflt : String) :
    Except VErr String :=
  match lookup d k with
  | none => pure dflt
  | some v => asStr v

/-- Car.from_dict: base decode plus data.get("seats", 4). -/
def Car.from_dict (data : List (String × JValue)) :
    Except VErr (VehicleBase × ℚ) := do
  let b ← VehicleBase.from_dict data
  let seats ← getNumOr data "seats" 4
  return (b, seats)

/-- ElectricCar.from_dict: Car decode plus data.get("battery_capacity", 0). -/
def ElectricCar.from_dict (data : List (String × JValue)) :
    Except VErr (VehicleBase × ℚ × ℚ) := do
  let (b, seats) ← Car.from_dict data
  let batt ← getNumOr data "battery_capacity" 0
  return (b, seats, batt)

/-- Bus.from_dict: base decode plus data.get("capacity", 20) and
data.get("double_decker", False). -/
def Bus.from_dict (data : List (String × JValue)) :
    Except VErr (VehicleBase × ℚ × Bool) := do
  let b ← VehicleBase.from_dict data
  let cap ← getNumOr data "capacity" 20
  let dd ← getBoolOr data "double_decker" false
  return (b, cap, dd)

/-- Motorcycle.from_dict: base decode plus data.get("moto_type", "Unknown"). -/
def Motorcycle.from_dict (data : List (String × JValue)) :
    Except VErr (VehicleBase × String) := do
  let b ← VehicleBase.from_dict data
  let mt ← getStrOr data "moto_type" "Unknown"
  return (b, mt)

/-- The per-item tag dispatch of load_json: item.get("type", "Vehicle")
compared against each variant tag, the base variant otherwise. -/
def decodeItem (item : List (String × JValue)) : Except VErr Vehicle :=
  let t := (lookup item "type").getD (.str "Vehicle")
  if eqStr t "Car" then do
    let (b, s) ← Car.from_dict item
    return .car b s
  else if eqStr t "ElectricCar" then do
    let (b, s, bc) ← ElectricCar.from_dict item
    return .electricCar b s bc
  else if eqStr t "Bus" then do
    let (b, c, dd) ← Bus.from_dict item
    return .bus b c dd
  else if eqStr t "Motorcycle" then do
    let (b, mt) ← Motorcycle.from_dict item
    return .motorcycle b mt
  else do
    let b ← VehicleBase.from_dict item
    return .base b

/-- VehicleStorage.save_json: the serialized sequence, one mapping per
stored vehicle. -/
def save_json (vehicles : List Vehicle) : List JValue :=
  vehicles.map (fun v => .obj v.to_dict)

/-- VehicleStorage.load_json: none models FileNotFoundError, recovered as
the empty store; otherwise every item of the parsed sequence is decoded
by tag dispatch and the store is replaced wholesale. -/
def load_json (input : Option (List JValue)) : Except VErr (List Vehicle) :=
  match input with
  | none => .ok []
  | some data => data.mapM (fun item => asObj item >>= decodeItem)

/-- An element of a parsed XML document: tag, text and child elements. -/
inductive XElem where
  | mk (tag : String) (text : Option String) (children : List XElem)

def XElem.tag : XElem → String
  | .mk t _ _ => t

def XElem.text : XElem → Option String
  | .mk _ x _ => x

def XElem.children : XElem → List XElem
  | .mk _ _ c => c

/-- element.find(tag): the first child with the given tag, if any. -/
def findChild (e : XElem) (t : String) : Option XElem :=
  e.children.find? (fun c => c.tag == t)

/-- element.findtext(tag, default): the first matching child's text, the
empty string when the child has no text, the default when there is no
matching child. -/
def findtext (e : XElem) (t dflt : String) : String :=
  match findChild e t with
  | none => dflt
  | some c => c.text.getD ""

/-- element.findtext("a/b", default) for a two-step path. -/
def findtext2 (e : XElem) (t₁ t₂ dflt : String) : String :=
  match findChild e t₁ with
  | none => dflt
  | some c => findtext c t₂ dflt

/-- Value of a decimal digit. -/
def digitVal (c : Char) : Option ℕ :=
  if c.isDigit then some (c.toNat - 48) else none

/-- A nonempty digit string read as a natural number. -/
def digitsToNat : List Char → Option ℕ
  | [] => none
  | cs => cs.foldl
      (fun acc c =>
        match acc, digitVal c with
        | some n, some d => some (10 * n + d)
        | _, _ => none)
      (some 0)

/-- Python int(s) on decode input: an optional sign then digits; anything
else raises ValueError. -/
def pyInt (s : String) : Option ℤ :=
  match s.data with
  | '-' :: rest => (digitsToNat rest).map (fun n => -(n : ℤ))
  | cs => (digitsToNat cs).map (fun n => (n : ℤ))

/-- Digits with an optional fractional part read as a rational. -/
def ratCore (cs : List Char) : Option ℚ :=
  match cs.span (fun c => c != '.') with
  | (intPart, []) => (digitsToNat intPart).map (fun n => (n : ℚ))
  | (intPart, _ :: fracPart) =>
    match digitsToNat intPart, digitsToNat fracPart with
    | some n, some f => some ((n : ℚ) + (f : ℚ) / (10 : ℚ) ^ fracPart.length)
    | _, _ => none

/-- Python float(s) on decode input: an optional sign, digits, an optional
fractional part; anything else raises ValueError. -/
def pyFloat (s : String) : Option ℚ :=
  match s.data with
  | '-' :: rest => (ratCore rest).map Neg.neg
  | cs => ratCore cs

/-- A parse failure surfaced as the structural error class. -/
def parsedInt (s : String) : Except VErr ℤ :=
  match pyInt s with
  | some n => .ok n
  | none => .error .structural

/-- A parse failure surfaced as the structural error class. -/
def parsedFloat (s : String) : Except VErr ℚ :=
  match pyFloat s with
  | some q => .ok q
  | none => .error .structural

/-- The wheels comprehension of load_xml: veh.find("wheels") is iterated
(a missing subtree is the structural TypeError), each child's text parsed
as an integer and passed to the validating Wheel constructor. -/
def readWheels (veh : XElem) : Except VErr (List Wheel) :=
  match findChild veh "wheels" with
  | none => .error .structural
  | some ws => ws.children.mapM (fun w =>
      match w.text with
      | none => .error .structural
      | some t => do
          let n ← parsedInt t
          Wheel.init (n : ℚ))

/-- The body of load_xml for one vehicle element: base fields first (model
and engine/transmission texts default-filled, wheels mandatory), then the
dispatch on the element tag with per-variant field reads. -/
def decodeXmlVehicle (veh : XElem) : Except VErr Vehicle := do
  let model := findtext veh "model" "Unknown"
  let engine_type := findtext2 veh "engine" "type" "Unknown"
  let power ← parsedFloat (findtext2 veh "engine" "power" "0")
  let engine ← Engine.init engine_type power
  let trans_type := findtext2 veh "transmission" "type" "Manual"
  let gears ← parsedInt (findtext2 veh "transmission" "gears" "1")
  let transmission ← Transmission.init trans_type (gears : ℚ)
  let wheels ← readWheels veh
  let b : VehicleBase := ⟨model, engine, transmission, wheels⟩
  if veh.tag = "Car" then do
    let seats ← parsedInt (findtext veh "seats" "4")
    return .car b (seats : ℚ)
  else if veh.tag = "ElectricCar" then do
    let seats ← parsedInt (findtext veh "seats" "4")
    let battery ← parsedFloat (findtext veh "battery_capacity" "0")
    return .electricCar b (seats : ℚ) battery
  else if veh.tag = "Bus" then do
    let capacity ← parsedInt (findtext veh "capacity" "20")
    let dd := findtext veh "double_decker" "False" == "True"
    return .bus b (capacity : ℚ) dd
  else if veh.tag = "Motorcycle" then do
    let mt := findtext veh "moto_type" "Unknown"
    return .motorcycle b mt
  else
    return .base b

/-- VehicleStorage.load_xml: none models FileNotFoundError, recovered as
the empty store; otherwise every child of the root is decoded and the
store is replaced wholesale. -/
def load_xml (input : Option XElem) : Except VErr (List Vehicle) :=
  match input with
  | none => .ok []
  | some root => root.children.mapM decodeXmlVehicle

/-- The value-type invariants, on the base fields: positive engine power,
positive gear count, every wheel size at least 10. -/
def ValidBase (b : VehicleBase) : Prop :=
  0 < b.engine.power ∧ 0 < b.transmission.gears ∧ ∀ w ∈ b.wheels, 10 ≤ w.size

instance (b : VehicleBase) : Decidable (ValidBase b) := by
  unfold ValidBase
  infer_instance

/-- A vehicle all of whose sub-parts satisfy the value-type invariants. -/
def ValidVehicle (v : Vehicle) : Prop := ValidBase v.baseOf

instance (v : Vehicle) : Decidable (ValidVehicle v) := by
  unfold ValidVehicle
  infer_instance

/-- The example vehicle of the program entry point. -/
def tesla : Vehicle :=
  .electricCar ⟨"Tesla Model 3", ⟨"Electric", 200⟩, ⟨"Automatic", 1⟩,
    [⟨19⟩, ⟨19⟩, ⟨19⟩, ⟨19⟩]⟩ 5 75

/-! ## Helper lemmas -/

@[simp] theorem ok_bind {ε α β : Type} (a : α) (f : α → Except ε β) :
    (Except.ok a >>= f) = f a := rfl

@[simp] theorem error_bind {ε α β : Type} (e : ε) (f : α → Except ε β) :
    ((Except.error e : Except ε α) >>= f) = .error e := rfl

@[simp] theorem pure_eq_ok {ε α : Type} (a : α) :
    (pure a : Except ε α) = .ok a := rfl

theorem bind_ok_inv {ε α β : Type} {x : Except ε α} {f : α → Except ε β} {v : β}
    (h : (x >>= f) = .ok v) : ∃ a, x = .ok a ∧ f a = .ok v := by
  cases x with
  | ok a => exact ⟨a, rfl, h⟩
  | error e => exact Except.noConfusion h

@[simp] theorem ok_map {ε α β : Type} (a : α) (f : α → β) :
    (Except.ok a : Except ε α).map f = .ok (f a) := rfl

@[simp] theorem error_map {ε α β : Type} (e : ε) (f : α → β) :
    (Except.error e : Except ε α).map f = .error e := rfl

theorem getNumOr_none {d : List (String × JValue)} {k : String} {q : ℚ}
    (h : lookup d k = none) : getNumOr d k q = .ok q := by
  unfold getNumOr
  rw [h]
  rfl

theorem getBoolOr_none {d : List (String × JValue)} {k : String} {b : Bool}
    (h : lookup d k = none) : getBoolOr d k b = .ok b := by
  unfold getBoolOr
  rw [h]
  rfl

theorem getStrOr_none {d : List (String × JValue)} {k : String} {s : String}
    (h : lookup d k = none) : getStrOr d k s = .ok s := by
  unfold getStrOr
  rw [h]
  rfl

theorem engineInit_isOk (t : String) (p : ℚ) :
    (Engine.init t p).isOk = true ↔ 0 < p := by
  by_cases hp : p ≤ 0
  · unfold Engine.init
    rw [if_pos hp]
    simp only [Except.isOk, Except.toBool, Bool.false_eq_true, false_iff]
    exact not_lt.mpr hp
  · unfold Engine.init
    rw [if_neg hp]
    simp only [Except.isOk, Except.toBool, true_iff]
    exact not_le.mp hp

theorem transmissionInit_isOk (t : String) (g : ℚ) :
    (Transmission.init t g).isOk = true ↔ 0 < g := by
  by_cases hg : g ≤ 0
  · unfold Transmission.init
    rw [if_pos hg]
    simp only [Except.isOk, Except.toBool, Bool.false_eq_true, false_iff]
    exact not_lt.mpr hg
  · unfold Transmission.init
    rw [if_neg hg]
    simp only [Except.isOk, Except.toBool, true_iff]
    exact not_le.mp hg

theorem wheelInit_isOk (s : ℚ) :
    (Wheel.init s).isOk = true ↔ 10 ≤ s := by
  by_cases hs : s < 10
  · unfold Wheel.init
    rw [if_pos hs]
    simp only [Except.isOk, Except.toBool, Bool.false_eq_true, false_iff]
    exact not_le.mpr hs
  · unfold Wheel.init
    rw [if_neg hs]
    simp only [Except.isOk, Except.toBool, true_iff]
    exact not_lt.mp hs

/-! ## C2 -/

/-- C2: constructing an Engine, Transmission or Wheel raises the
invalid-value error exactly when power <= 0, gears <= 0 or size < 10;
construction succeeds at the boundary inputs gears = 1, size = 10,
power = 0.0001 and fails for power 0, -1, -200, gears 0, -1,
size 0, 9. -/
theorem construction_validation :
    (∀ (t : String) (p : ℚ), (Engine.init t p).isOk = true ↔ 0 < p) ∧
    (∀ (t : String) (g : ℚ), (Transmission.init t g).isOk = true ↔ 0 < g) ∧
    (∀ (s : ℚ), (Wheel.init s).isOk = true ↔ 10 ≤ s) ∧
    (Transmission.init "Automatic" 1).isOk = true ∧
    (Wheel.init 10).isOk = true ∧
    (Engine.init "Electric" (1 / 10000)).isOk = true ∧
    Engine.init "E" 0 = .error .invalidValue ∧
    Engine.init "E" (-1) = .error .invalidValue ∧
    Engine.init "E" (-200) = .error .invalidValue ∧
    Transmission.init "M" 0 = .error .invalidValue ∧
    Transmission.init "M" (-1) = .error .invalidValue ∧
    Wheel.init 0 = .error .invalidValue ∧
    Wheel.init 9 = .error .invalidValue := by
  refine ⟨engineInit_isOk, transmissionInit_isOk, wheelInit_isOk,
    (transmissionInit_isOk _ _).mpr (by norm_num),
    (wheelInit_isOk _).mpr (by norm_num),
    (engineInit_isOk _ _).mpr (by norm_num),
    ?_, ?_, ?_, ?_, ?_, ?_, ?_⟩ <;> decide

/-- Witness for C2 at a concrete engine. -/
theorem construction_validation_w :
    (Engine.init "Electric" 200).isOk = true :=
  (construction_validation.1 "Electric" 200).mpr (by norm_num)

/-! ## C1 -/

theorem base_to_dict_eq (b : VehicleBase) :
    (Vehicle.base b).to_dict =
      [("type", .str "Vehicle"), ("model", .str b.model),
       ("engine", .obj b.engine.to_dict),
       ("transmission", .obj b.transmission.to_dict),
       ("wheels", .arr (b.wheels.map (fun w => .obj w.to_dict)))] := rfl

theorem car_to_dict_eq (b : VehicleBase) (s : ℚ) :
    (Vehicle.car b s).to_dict =
      [("type", .str "Car"), ("model", .str b.model),
       ("engine", .obj b.engine.to_dict),
       ("transmission", .obj b.transmission.to_dict),
       ("wheels", .arr (b.wheels.map (fun w => .obj w.to_dict))),
       ("seats", .num s)] := rfl

theorem electricCar_to_dict_eq (b : VehicleBase) (s bc : ℚ) :
    (Vehicle.electricCar b s bc).to_dict =
      [("type", .str "ElectricCar"), ("model", .str b.model),
       ("engine", .obj b.engine.to_dict),
       ("transmission", .obj b.transmission.to_dict),
       ("wheels", .arr (b.wheels.map (fun w => .obj w.to_dict))),
       ("seats", .num s), ("battery_capacity", .num bc)] := rfl

theorem bus_to_dict_eq (b : VehicleBase) (c : ℚ) (dd : Bool) :
    (Vehicle.bus b c dd).to_dict =
      [("type", .str "Bus"), ("model", .str b.model),
       ("engine", .obj b.engine.to_dict),
       ("transmission", .obj b.transmission.to_dict),
       ("wheels", .arr (b.wheels.map (fun w => .obj w.to_dict))),
       ("capacity", .num c), ("double_decker", .bool dd)] := rfl

theorem motorcycle_to_dict_eq (b : VehicleBase) (mt : String) :
    (Vehicle.motorcycle b mt).to_dict =
      [("type", .str "Motorcycle"), ("model", .str b.model),
       ("engine", .obj b.engine.to_dict),
       ("transmission", .obj b.transmission.to_dict),
       ("wheels", .arr (b.wheels.map (fun w => .obj w.to_dict))),
       ("moto_type", .str mt)] := rfl

theorem engine_from_to (e : Engine) (h : 0 < e.power) :
    Engine.from_dict e.to_dict = .ok e := by
  show Engine.init e.engine_type e.power = .ok e
  unfold Engine.init
  rw [if_neg (not_le.mpr h)]

theorem transmission_from_to (t : Transmission) (h : 0 < t.gears) :
    Transmission.from_dict t.to_dict = .ok t := by
  show Transmission.init t.transmission_type t.gears = .ok t
  unfold Transmission.init
  rw [if_neg (not_le.mpr h)]

theorem wheel_from_to (w : Wheel) (h : 10 ≤ w.size) :
    Wheel.from_dict w.to_dict = .ok w := by
  show Wheel.init w.size = .ok w
  unfold Wheel.init
  rw [if_neg (not_lt.mpr h)]

theorem wheels_from_to (ws : List Wheel) (h : ∀ w ∈ ws, 10 ≤ w.size) :
    (ws.map (fun w => JValue.obj w.to_dict)).mapM
      (fun w => asObj w >>= Wheel.from_dict) = .ok ws := by
  induction ws with
  | nil => rfl
  | cons w ws ih =>
    rw [List.map_cons, List.mapM_cons]
    have h1 : asObj (JValue.obj w.to_dict) >>= Wheel.from_dict = .ok w :=
      wheel_from_to w (h w (by simp))
    rw [h1, ih (fun x hx => h x (by simp [hx]))]
    rfl

/-- The shared base-field decode applied to any of the five encoded forms:
once the lookups are reduced, only the three component decodes remain. -/
theorem base_decode_of_components (d : List (String × JValue)) (b : VehicleBase)
    (he : getField d "engine" >>= asObj = .ok b.engine.to_dict)
    (ht : getField d "transmission" >>= asObj = .ok b.transmission.to_dict)
    (hw : getField d "wheels" >>= asArr = .ok (b.wheels.map (fun w => .obj w.to_dict)))
    (hm : getField d "model" >>= asStr = .ok b.model)
    (h : ValidBase b) :
    VehicleBase.from_dict d = .ok b := by
  obtain ⟨h1, h2, h3⟩ := h
  unfold VehicleBase.from_dict
  rw [he]
  simp only [ok_bind]
  rw [engine_from_to b.engine h1]
  simp only [ok_bind]
  rw [ht]
  simp only [ok_bind]
  rw [transmission_from_to b.transmission h2]
  simp only [ok_bind]
  rw [hw]
  simp only [ok_bind]
  rw [wheels_from_to b.wheels h3]
  simp only [ok_bind]
  rw [hm]
  rfl

theorem base_roundtrip (b : VehicleBase) (h : ValidBase b) :
    decodeItem (Vehicle.base b).to_dict = .ok (.base b) := by
  show ((VehicleBase.from_dict (Vehicle.base b).to_dict) >>=
    fun b₁ => pure (Vehicle.base b₁)) = .ok (.base b)
  rw [base_decode_of_components (Vehicle.base b).to_dict b rfl rfl rfl rfl h]
  rfl

theorem car_roundtrip (b : VehicleBase) (s : ℚ) (h : ValidBase b) :
    decodeItem (Vehicle.car b s).to_dict = .ok (.car b s) := by
  show ((Car.from_dict (Vehicle.car b s).to_dict) >>=
    fun p => pure (Vehicle.car p.1 p.2)) = .ok (.car b s)
  unfold Car.from_dict
  rw [base_decode_of_components (Vehicle.car b s).to_dict b rfl rfl rfl rfl h]
  rfl

theorem electricCar_roundtrip (b : VehicleBase) (s bc : ℚ) (h : ValidBase b) :
    decodeItem (Vehicle.electricCar b s bc).to_dict = .ok (.electricCar b s bc) := by
  show ((ElectricCar.from_dict (Vehicle.electricCar b s bc).to_dict) >>=
    fun p => pure (Vehicle.electricCar p.1 p.2.1 p.2.2)) = .ok (.electricCar b s bc)
  unfold ElectricCar.from_dict Car.from_dict
  rw [base_decode_of_components (Vehicle.electricCar b s bc).to_dict b rfl rfl rfl rfl h]
  rfl

theorem bus_roundtrip (b : VehicleBase) (c : ℚ) (dd : Bool) (h : ValidBase b) :
    decodeItem (Vehicle.bus b c dd).to_dict = .ok (.bus b c dd) := by
  show ((Bus.from_dict (Vehicle.bus b c dd).to_dict) >>=
    fun p => pure (Vehicle.bus p.1 p.2.1 p.2.2)) = .ok (.bus b c dd)
  unfold Bus.from_dict
  rw [base_decode_of_components (Vehicle.bus b c dd).to_dict b rfl rfl rfl rfl h]
  rfl

theorem motorcycle_roundtrip (b : VehicleBase) (mt : String) (h : ValidBase b) :
    decodeItem (Vehicle.motorcycle b mt).to_dict = .ok (.motorcycle b mt) := by
  show ((Motorcycle.from_dict (Vehicle.motorcycle b mt).to_dict) >>=
    fun p => pure (Vehicle.motorcycle p.1 p.2)) = .ok (.motorcycle b mt)
  unfold Motorcycle.from_dict
  rw [base_decode_of_components (Vehicle.motorcycle b mt).to_dict b rfl rfl rfl rfl h]
  rfl

/-- C1: for every vehicle variant with valid sub-parts, encoding through
to_dict and decoding through the tag dispatch of load_json yields the same
variant with the same tag and all fields equal, both per vehicle and for a
whole saved store. -/
theorem record_roundtrip :
    (∀ v : Vehicle, ValidVehicle v → decodeItem v.to_dict = .ok v) ∧
    (∀ vs : List Vehicle, (∀ v ∈ vs, ValidVehicle v) →
      load_json (some (save_json vs)) = .ok vs) := by
  have single : ∀ v : Vehicle, ValidVehicle v → decodeItem v.to_dict = .ok v := by
    intro v h
    cases v with
    | base b => exact base_roundtrip b h
    | car b s => exact car_roundtrip b s h
    | electricCar b s bc => exact electricCar_roundtrip b s bc h
    | bus b c dd => exact bus_roundtrip b c dd h
    | motorcycle b mt => exact motorcycle_roundtrip b mt h
  refine ⟨single, ?_⟩
  intro vs h
  show (vs.map (fun v => JValue.obj v.to_dict)).mapM
    (fun item => asObj item >>= decodeItem) = .ok vs
  induction vs with
  | nil => rfl
  | cons v vs ih =>
    rw [List.map_cons, List.mapM_cons]
    have h1 : asObj (JValue.obj v.to_dict) >>= decodeItem = .ok v :=
      single v (h v (by simp))
    rw [h1, ih (fun x hx => h x (by simp [hx]))]
    rfl

/-- Witness for C1: the end-to-end scenario vehicle, an ElectricCar with
the Tesla Model 3 fields, survives the record round trip exactly. -/
theorem record_roundtrip_w :
    decodeItem tesla.to_dict = .ok tesla ∧
    load_json (some (save_json [tesla])) = .ok [tesla] :=
  ⟨record_roundtrip.1 tesla (by decide),
   record_roundtrip.2 [tesla] (by decide)⟩

/-! ## Error inversion lemmas -/

theorem bind_error_inv {ε α β : Type} {x : Except ε α} {f : α → Except ε β} {e : ε}
    (h : (x >>= f) = .error e) :
    x = .error e ∨ ∃ a, x = .ok a ∧ f a = .error e := by
  cases x with
  | ok a => exact .inr ⟨a, rfl, h⟩
  | error e₁ =>
    rw [error_bind] at h
    cases Except.error.inj h
    exact .inl rfl

theorem engineInit_ok_inv {t : String} {p : ℚ} {e : Engine}
    (h : Engine.init t p = .ok e) : e.engine_type = t ∧ e.power = p ∧ 0 < p := by
  unfold Engine.init at h
  split at h
  · exact Except.noConfusion h
  · rename_i hp
    cases Except.ok.inj h
    exact ⟨rfl, rfl, not_le.mp hp⟩

theorem transmissionInit_ok_inv {t : String} {g : ℚ} {tr : Transmission}
    (h : Transmission.init t g = .ok tr) :
    tr.transmission_type = t ∧ tr.gears = g ∧ 0 < g := by
  unfold Transmission.init at h
  split at h
  · exact Except.noConfusion h
  · rename_i hg
    cases Except.ok.inj h
    exact ⟨rfl, rfl, not_le.mp hg⟩

theorem wheelInit_ok_inv {s : ℚ} {w : Wheel}
    (h : Wheel.init s = .ok w) : w.size = s ∧ 10 ≤ s := by
  unfold Wheel.init at h
  split at h
  · exact Except.noConfusion h
  · rename_i hs
    cases Except.ok.inj h
    exact ⟨rfl, not_lt.mp hs⟩

theorem engineInit_error_inv {t : String} {p : ℚ} {e : VErr}
    (h : Engine.init t p = .error e) : e = .invalidValue ∧ p ≤ 0 := by
  unfold Engine.init at h
  split at h
  · rename_i hp
    exact ⟨(Except.error.inj h).symm, hp⟩
  · exact Except.noConfusion h

theorem transmissionInit_error_inv {t : String} {g : ℚ} {e : VErr}
    (h : Transmission.init t g = .error e) : e = .invalidValue ∧ g ≤ 0 := by
  unfold Transmission.init at h
  split at h
  · rename_i hg
    exact ⟨(Except.error.inj h).symm, hg⟩
  · exact Except.noConfusion h

theorem wheelInit_error_inv {s : ℚ} {e : VErr}
    (h : Wheel.init s = .error e) : e = .invalidValue ∧ s < 10 := by
  unfold Wheel.init at h
  split at h
  · rename_i hs
    exact ⟨(Except.error.inj h).symm, hs⟩
  · exact Except.noConfusion h

theorem getField_asStr_ok_inv {d : List (String × JValue)} {k t : String}
    (h : getField d k >>= asStr = .ok t) : lookup d k = some (.str t) := by
  unfold getField at h
  cases hv : lookup d k with
  | none => rw [hv] at h; exact Except.noConfusion h
  | some v =>
    rw [hv] at h
    cases v <;> simp only [ok_bind, asStr] at h
    · cases Except.ok.inj h; rfl
    all_goals exact Except.noConfusion h

theorem getField_asNum_ok_inv {d : List (String × JValue)} {k : String} {q : ℚ}
    (h : getField d k >>= asNum = .ok q) : lookup d k = some (.num q) := by
  unfold getField at h
  cases hv : lookup d k with
  | none => rw [hv] at h; exact Except.noConfusion h
  | some v =>
    rw [hv] at h
    cases v <;> simp only [ok_bind, asNum] at h
    case num => cases Except.ok.inj h; rfl
    all_goals exact Except.noConfusion h

theorem getField_asObj_ok_inv {d : List (String × JValue)} {k : String}
    {o : List (String × JValue)}
    (h : getField d k >>= asObj = .ok o) : lookup d k = some (.obj o) := by
  unfold getField at h
  cases hv : lookup d k with
  | none => rw [hv] at h; exact Except.noConfusion h
  | some v =>
    rw [hv] at h
    cases v <;> simp only [ok_bind, asObj] at h
    case obj => cases Except.ok.inj h; rfl
    all_goals exact Except.noConfusion h

theorem getField_asArr_ok_inv {d : List (String × JValue)} {k : String}
    {xs : List JValue}
    (h : getField d k >>= asArr = .ok xs) : lookup d k = some (.arr xs) := by
  unfold getField at h
  cases hv : lookup d k with
  | none => rw [hv] at h; exact Except.noConfusion h
  | some v =>
    rw [hv] at h
    cases v <;> simp only [ok_bind, asArr] at h
    case arr => cases Except.ok.inj h; rfl
    all_goals exact Except.noConfusion h

theorem getField_asStr_error_inv {d : List (String × JValue)} {k : String} {e : VErr}
    (h : getField d k >>= asStr = .error e) : e = .structural := by
  unfold getField at h
  cases hv : lookup d k with
  | none => rw [hv] at h; exact (Except.error.inj h).symm
  | some v =>
    rw [hv] at h
    cases v <;> simp only [ok_bind, asStr] at h <;>
      first
        | exact (Except.error.inj h).symm
        | exact Except.noConfusion h

theorem getField_asNum_error_inv {d : List (String × JValue)} {k : String} {e : VErr}
    (h : getField d k >>= asNum = .error e) : e = .structural := by
  unfold getField at h
  cases hv : lookup d k with
  | none => rw [hv] at h; exact (Except.error.inj h).symm
  | some v =>
    rw [hv] at h
    cases v <;> simp only [ok_bind, asNum] at h <;>
      first
        | exact (Except.error.inj h).symm
        | exact Except.noConfusion h

theorem getField_asObj_error_inv {d : List (String × JValue)} {k : String} {e : VErr}
    (h : getField d k >>= asObj = .error e) : e = .structural := by
  unfold getField at h
  cases hv : lookup d k with
  | none => rw [hv] at h; exact (Except.error.inj h).symm
  | some v =>
    rw [hv] at h
    cases v <;> simp only [ok_bind, asObj] at h <;>
      first
        | exact (Except.error.inj h).symm
        | exact Except.noConfusion h

theorem getField_asArr_error_inv {d : List (String × JValue)} {k : String} {e : VErr}
    (h : getField d k >>= asArr = .error e) : e = .structural := by
  unfold getField at h
  cases hv : lookup d k with
  | none => rw [hv] at h; exact (Except.error.inj h).symm
  | some v =>
    rw [hv] at h
    cases v <;> simp only [ok_bind, asArr] at h <;>
      first
        | exact (Except.error.inj h).symm
        | exact Except.noConfusion h

theorem getNumOr_error_inv {d : List (String × JValue)} {k : String} {q : ℚ} {e : VErr}
    (h : getNumOr d k q = .error e) : e = .structural := by
  unfold getNumOr at h
  cases hv : lookup d k with
  | none => rw [hv] at h; exact Except.noConfusion h
  | some v =>
    rw [hv] at h
    cases v <;> simp only [asNum] at h <;>
      first
        | exact (Except.error.inj h).symm
        | exact Except.noConfusion h

theorem getBoolOr_error_inv {d : List (String × JValue)} {k : String} {b : Bool} {e : VErr}
    (h : getBoolOr d k b = .error e) : e = .structural := by
  unfold getBoolOr at h
  cases hv : lookup d k with
  | none => rw [hv] at h; exact Except.noConfusion h
  | some v =>
    rw [hv] at h
    cases v <;> simp only [asBool] at h <;>
      first
        | exact (Except.error.inj h).symm
        | exact Except.noConfusion h

theorem getStrOr_error_inv {d : List (String × JValue)} {k s : String} {e : VErr}
    (h : getStrOr d k s = .error e) : e = .structural := by
  unfold getStrOr at h
  cases hv : lookup d k with
  | none => rw [hv] at h; exact Except.noConfusion h
  | some v =>
    rw [hv] at h
    cases v <;> simp only [asStr] at h <;>
      first
        | exact (Except.error.inj h).symm
        | exact Except.noConfusion h

theorem mapM_error_inv {α β : Type} {f : α → Except VErr β} {xs : List α} {e : VErr}
    (h : xs.mapM f = .error e) : ∃ x ∈ xs, f x = .error e := by
  induction xs with
  | nil => exact Except.noConfusion h
  | cons x xs ih =>
    rw [List.mapM_cons] at h
    rcases bind_error_inv h with h1 | ⟨y, _, h⟩
    · exact ⟨x, by simp, h1⟩
    · rcases bind_error_inv h with h2 | ⟨ys, _, h⟩
      · obtain ⟨x₁, hx₁, hfx⟩ := ih h2
        exact ⟨x₁, by simp [hx₁], hfx⟩
      · exact Except.noConfusion h

theorem mapM_ok_mem {α β : Type} {f : α → Except VErr β} {xs : List α} {ys : List β}
    (h : xs.mapM f = .ok ys) : ∀ y ∈ ys, ∃ x ∈ xs, f x = .ok y := by
  induction xs generalizing ys with
  | nil =>
    cases Except.ok.inj h
    intro y hy
    exact absurd hy (List.not_mem_nil y)
  | cons x xs ih =>
    rw [List.mapM_cons] at h
    obtain ⟨y₁, hy₁, h⟩ := bind_ok_inv h
    obtain ⟨ys₁, hys₁, h⟩ := bind_ok_inv h
    cases Except.ok.inj h
    intro y hy
    rcases List.mem_cons.mp hy with rfl | hy
    · exact ⟨x, by simp, hy₁⟩
    · obtain ⟨x₁, hx₁, hfx⟩ := ih hys₁ y hy
      exact ⟨x₁, by simp [hx₁], hfx⟩

/-! ## C3 -/

theorem engine_from_dict_invalid {eo : List (String × JValue)}
    (h : Engine.from_dict eo = .error .invalidValue) :
    ∃ q, lookup eo "power" = some (.num q) ∧ q ≤ 0 := by
  unfold Engine.from_dict at h
  rcases bind_error_inv h with h1 | ⟨t, _, h⟩
  · exact absurd (getField_asStr_error_inv h1) (by decide)
  rcases bind_error_inv h with h1 | ⟨p, hp, h⟩
  · exact absurd (getField_asNum_error_inv h1) (by decide)
  · exact ⟨p, getField_asNum_ok_inv hp, (engineInit_error_inv h).2⟩

theorem transmission_from_dict_invalid {tro : List (String × JValue)}
    (h : Transmission.from_dict tro = .error .invalidValue) :
    ∃ q, lookup tro "gears" = some (.num q) ∧ q ≤ 0 := by
  unfold Transmission.from_dict at h
  rcases bind_error_inv h with h1 | ⟨t, _, h⟩
  · exact absurd (getField_asStr_error_inv h1) (by decide)
  rcases bind_error_inv h with h1 | ⟨g, hg, h⟩
  · exact absurd (getField_asNum_error_inv h1) (by decide)
  · exact ⟨g, getField_asNum_ok_inv hg, (transmissionInit_error_inv h).2⟩

theorem wheel_from_dict_invalid {wo : List (String × JValue)}
    (h : Wheel.from_dict wo = .error .invalidValue) :
    ∃ q, lookup wo "size" = some (.num q) ∧ q < 10 := by
  unfold Wheel.from_dict at h
  rcases bind_error_inv h with h1 | ⟨s, hs, h⟩
  · exact absurd (getField_asNum_error_inv h1) (by decide)
  · exact ⟨s, getField_asNum_ok_inv hs, (wheelInit_error_inv h).2⟩

theorem wheelItem_invalid {w : JValue}
    (h : (asObj w >>= Wheel.from_dict) = .error .invalidValue) :
    ∃ wo q, w = .obj wo ∧ lookup wo "size" = some (.num q) ∧ q < 10 := by
  cases w with
  | obj wo =>
    rw [show asObj (JValue.obj wo) = .ok wo from rfl, ok_bind] at h
    obtain ⟨q, h1, h2⟩ := wheel_from_dict_invalid h
    exact ⟨wo, q, rfl, h1, h2⟩
  | str s => simp [asObj] at h
  | num q => simp [asObj] at h
  | bool b => simp [asObj] at h
  | arr xs => simp [asObj] at h

/-- An explicit out-of-range value carried by the input mapping itself:
an engine power at most 0, a gear count at most 0, or a wheel size
below 10. -/
def BadExplicit (d : List (String × JValue)) : Prop :=
  (∃ eo q, lookup d "engine" = some (.obj eo) ∧
    lookup eo "power" = some (.num q) ∧ q ≤ 0) ∨
  (∃ tro q, lookup d "transmission" = some (.obj tro) ∧
    lookup tro "gears" = some (.num q) ∧ q ≤ 0) ∨
  (∃ ws wo q, lookup d "wheels" = some (.arr ws) ∧ JValue.obj wo ∈ ws ∧
    lookup wo "size" = some (.num q) ∧ q < 10)

theorem base_from_dict_invalid {d : List (String × JValue)}
    (h : VehicleBase.from_dict d = .error .invalidValue) : BadExplicit d := by
  unfold VehicleBase.from_dict at h
  rcases bind_error_inv h with h1 | ⟨eo, heo, h⟩
  · exact absurd (getField_asObj_error_inv h1) (by decide)
  rcases bind_error_inv h with h1 | ⟨eng, _, h⟩
  · obtain ⟨q, hq1, hq2⟩ := engine_from_dict_invalid h1
    exact Or.inl ⟨eo, q, getField_asObj_ok_inv heo, hq1, hq2⟩
  rcases bind_error_inv h with h1 | ⟨tro, htro, h⟩
  · exact absurd (getField_asObj_error_inv h1) (by decide)
  rcases bind_error_inv h with h1 | ⟨tr, _, h⟩
  · obtain ⟨q, hq1, hq2⟩ := transmission_from_dict_invalid h1
    exact Or.inr (Or.inl ⟨tro, q, getField_asObj_ok_inv htro, hq1, hq2⟩)
  rcases bind_error_inv h with h1 | ⟨wa, hwa, h⟩
  · exact absurd (getField_asArr_error_inv h1) (by decide)
  rcases bind_error_inv h with h1 | ⟨wheels, _, h⟩
  · obtain ⟨w, hw, hfw⟩ := mapM_error_inv h1
    obtain ⟨wo, q, rfl, hq1, hq2⟩ := wheelItem_invalid hfw
    exact Or.inr (Or.inr ⟨wa, wo, q, getField_asArr_ok_inv hwa, hw, hq1, hq2⟩)
  rcases bind_error_inv h with h1 | ⟨m, _, h⟩
  · exact absurd (getField_asStr_error_inv h1) (by decide)
  · exact Except.noConfusion h

theorem car_from_dict_invalid {d : List (String × JValue)}
    (h : Car.from_dict d = .error .invalidValue) :
    VehicleBase.from_dict d = .error .invalidValue := by
  unfold Car.from_dict at h
  rcases bind_error_inv h with h1 | ⟨b, _, h⟩
  · exact h1
  rcases bind_error_inv h with h1 | ⟨s, _, h⟩
  · exact absurd (getNumOr_error_inv h1) (by decide)
  · exact Except.noConfusion h

theorem electricCar_from_dict_invalid {d : List (String × JValue)}
    (h : ElectricCar.from_dict d = .error .invalidValue) :
    VehicleBase.from_dict d = .error .invalidValue := by
  unfold ElectricCar.from_dict at h
  rcases bind_error_inv h with h1 | ⟨⟨b, s⟩, _, h⟩
  · exact car_from_dict_invalid h1
  rcases bind_error_inv h with h1 | ⟨bc, _, h⟩
  · exact absurd (getNumOr_error_inv h1) (by decide)
  · exact Except.noConfusion h

theorem bus_from_dict_invalid {d : List (String × JValue)}
    (h : Bus.from_dict d = .error .invalidValue) :
    VehicleBase.from_dict d = .error .invalidValue := by
  unfold Bus.from_dict at h
  rcases bind_error_inv h with h1 | ⟨b, _, h⟩
  · exact h1
  rcases bind_error_inv h with h1 | ⟨c, _, h⟩
  · exact absurd (getNumOr_error_inv h1) (by decide)
  rcases bind_error_inv h with h1 | ⟨dd, _, h⟩
  · exact absurd (getBoolOr_error_inv h1) (by decide)
  · exact Except.noConfusion h

theorem motorcycle_from_dict_invalid {d : List (String × JValue)}
    (h : Motorcycle.from_dict d = .error .invalidValue) :
    VehicleBase.from_dict d = .error .invalidValue := by
  unfold Motorcycle.from_dict at h
  rcases bind_error_inv h with h1 | ⟨b, _, h⟩
  · exact h1
  rcases bind_error_inv h with h1 | ⟨mt, _, h⟩
  · exact absurd (getStrOr_error_inv h1) (by decide)
  · exact Except.noConfusion h

/-- C3 amended: the invalid-value error class can escape record-format
decode, but only when the input mapping itself carries an explicit engine
power at most 0, gear count at most 0 or wheel size below 10; it is never
produced by default-filling, and all other decode failures are
structural. -/
theorem decode_invalid_only_explicit (d : List (String × JValue))
    (h : decodeItem d = .error .invalidValue) : BadExplicit d := by
  simp only [decodeItem] at h
  split at h
  · rcases bind_error_inv h with h1 | ⟨⟨b, s⟩, _, h⟩
    · exact base_from_dict_invalid (car_from_dict_invalid h1)
    · exact Except.noConfusion h
  split at h
  · rcases bind_error_inv h with h1 | ⟨⟨b, s, bc⟩, _, h⟩
    · exact base_from_dict_invalid (electricCar_from_dict_invalid h1)
    · exact Except.noConfusion h
  split at h
  · rcases bind_error_inv h with h1 | ⟨⟨b, c, dd⟩, _, h⟩
    · exact base_from_dict_invalid (bus_from_dict_invalid h1)
    · exact Except.noConfusion h
  split at h
  · rcases bind_error_inv h with h1 | ⟨⟨b, mt⟩, _, h⟩
    · exact base_from_dict_invalid (motorcycle_from_dict_invalid h1)
    · exact Except.noConfusion h
  · rcases bind_error_inv h with h1 | ⟨b, _, h⟩
    · exact base_from_dict_invalid h1
    · exact Except.noConfusion h

/-- A mapping whose engine block carries the explicit power -1. -/
def badPowerItem : List (String × JValue) :=
  [("type", .str "Vehicle"), ("model", .str "m"),
   ("engine", .obj [("engine_type", .str "e"), ("power", .num (-1))]),
   ("transmission", .obj [("transmission_type", .str "t"), ("gears", .num 5)]),
   ("wheels", .arr [])]

/-- Counterexample to C3 as stated: record-format decode of this concrete
mapping fails with the invalid-value error class, not a structural one,
because the mapping carries power -1 and decode reruns the validating
Engine constructor. -/
theorem decode_structural_only_cex :
    decodeItem badPowerItem = .error .invalidValue := by decide

/-- Witness for C3 amended at the concrete mapping with power -1. -/
theorem decode_invalid_only_explicit_w : BadExplicit badPowerItem :=
  decode_invalid_only_explicit badPowerItem (by decide)

/-! ## C4 -/

/-- A concrete Vehicle element with no engine node at all. -/
def xmlNoEngine : XElem :=
  .mk "Vehicle" none
    [.mk "model" (some "m") [],
     .mk "transmission" none [.mk "type" (some "Manual") [], .mk "gears" (some "1") []],
     .mk "wheels" none [.mk "wheel" (some "12") []]]

/-- Counterexample to C4 as stated: markup decode of this concrete element
substitutes the documented default 0 for the absent engine power, and the
Engine constructor rejects it, so default-filling does produce the
invalid-value error. -/
theorem markup_defaults_valid_cex :
    decodeXmlVehicle xmlNoEngine = .error .invalidValue := by decide

/-- C4 amended: every documented decode default except the markup engine
power default satisfies the construction invariants: the markup gears
default 1 is accepted (an element with no transmission node decodes with
Manual, 1), and the record-format variant defaults cannot fail at all;
but the markup engine power default 0 violates power > 0, so markup
decode of any vehicle element with no engine node fails with the
invalid-value error. -/
theorem decode_defaults_validity :
    (∀ veh : XElem, findChild veh "engine" = none →
      decodeXmlVehicle veh = .error .invalidValue) ∧
    (∀ veh v, decodeXmlVehicle veh = .ok v →
      findChild veh "transmission" = none →
      v.baseOf.transmission = ⟨"Manual", 1⟩) ∧
    (∀ d b, VehicleBase.from_dict d = .ok b →
      lookup d "seats" = none → Car.from_dict d = .ok (b, 4)) ∧
    (∀ d b s, Car.from_dict d = .ok (b, s) →
      lookup d "battery_capacity" = none →
      ElectricCar.from_dict d = .ok (b, s, 0)) ∧
    (∀ d b, VehicleBase.from_dict d = .ok b →
      lookup d "capacity" = none → lookup d "double_decker" = none →
      Bus.from_dict d = .ok (b, 20, false)) ∧
    (∀ d b, VehicleBase.from_dict d = .ok b →
      lookup d "moto_type" = none →
      Motorcycle.from_dict d = .ok (b, "Unknown")) := by
  refine ⟨?_, ?_, ?_, ?_, ?_, ?_⟩
  · intro veh hnone
    unfold decodeXmlVehicle findtext2
    rw [hnone]
    rfl
  · intro veh v hok hnone
    unfold decodeXmlVehicle at hok
    obtain ⟨p, hp, hok⟩ := bind_ok_inv hok
    obtain ⟨eng, heng, hok⟩ := bind_ok_inv hok
    obtain ⟨g, hg, hok⟩ := bind_ok_inv hok
    obtain ⟨tr, htr, hok⟩ := bind_ok_inv hok
    obtain ⟨ws, hws, hok⟩ := bind_ok_inv hok
    have hgoal : v.baseOf.transmission = tr := by
      split at hok
      · obtain ⟨s, _, hok⟩ := bind_ok_inv hok
        cases Except.ok.inj hok
        rfl
      split at hok
      · obtain ⟨s, _, hok⟩ := bind_ok_inv hok
        obtain ⟨bt, _, hok⟩ := bind_ok_inv hok
        cases Except.ok.inj hok
        rfl
      split at hok
      · obtain ⟨cap, _, hok⟩ := bind_ok_inv hok
        cases Except.ok.inj hok
        rfl
      split at hok
      · cases Except.ok.inj hok
        rfl
      · cases Except.ok.inj hok
        rfl
    unfold findtext2 at hg htr
    rw [hnone] at hg htr
    have hg1 : (1 : ℤ) = g :=
      Except.ok.inj (show (Except.ok (1 : ℤ) : Except VErr ℤ) = .ok g from hg)
    rw [← hg1] at htr
    have htr1 : Transmission.mk "Manual" ((1 : ℤ) : ℚ) = tr :=
      Except.ok.inj
        (show (Except.ok (Transmission.mk "Manual" ((1 : ℤ) : ℚ)) :
          Except VErr Transmission) = .ok tr from htr)
    rw [hgoal, ← htr1]
    norm_num
  · intro d b hb hseats
    unfold Car.from_dict
    rw [hb, ok_bind, getNumOr_none hseats, ok_bind]
    rfl
  · intro d b s hcar hbatt
    unfold ElectricCar.from_dict
    rw [hcar, ok_bind]
    show (getNumOr d "battery_capacity" 0 >>= fun batt => pure (b, s, batt)) = _
    rw [getNumOr_none hbatt, ok_bind]
    rfl
  · intro d b hb hcap hdd
    unfold Bus.from_dict
    rw [hb, ok_bind, getNumOr_none hcap, ok_bind, getBoolOr_none hdd, ok_bind]
    rfl
  · intro d b hb hmt
    unfold Motorcycle.from_dict
    rw [hb, ok_bind, getStrOr_none hmt, ok_bind]
    rfl

/-- A concrete Bus element with no engine node. -/
def busNoEngine : XElem :=
  .mk "Bus" none
    [.mk "model" (some "B2") [],
     .mk "transmission" none [.mk "type" (some "Manual") [], .mk "gears" (some "5") []],
     .mk "wheels" none [.mk "wheel" (some "20") []]]

/-- Witness for C4 amended: the concrete Bus element with no engine node
fails with the invalid-value error from the power default 0. -/
theorem decode_defaults_validity_w :
    decodeXmlVehicle busNoEngine = .error .invalidValue :=
  decode_defaults_validity.1 busNoEngine rfl

/-! ## C5 -/

theorem readWheels_none {veh : XElem} (h : findChild veh "wheels" = none) :
    readWheels veh = .error .structural := by
  unfold readWheels
  rw [h]

/-- A concrete Vehicle element with engine, transmission and wheels but no
model child. -/
def xmlNoModel : XElem :=
  .mk "Vehicle" none
    [.mk "engine" none [.mk "type" (some "E") [], .mk "power" (some "100") []],
     .mk "transmission" none [.mk "type" (some "M") [], .mk "gears" (some "5") []],
     .mk "wheels" none [.mk "wheel" (some "12") []]]

/-- Counterexample to C5 as stated: markup decode of this concrete vehicle
element with no model child succeeds, default-filling the model with
Unknown, instead of failing with a missing-data condition. -/
theorem mandatory_base_fields_cex :
    decodeXmlVehicle xmlNoModel =
      .ok (.base ⟨"Unknown", ⟨"E", 100⟩, ⟨"M", 5⟩, [⟨12⟩]⟩) := by decide

/-- C5 amended: in the record decoder all four base fields are mandatory
(an absent engine fails structurally at once, and no absent base field can
decode successfully); in the markup decoder only the wheels subtree is
mandatory - its absence fails rather than yielding zero wheels - while an
absent model is default-filled with Unknown rather than failing. -/
theorem mandatory_base_fields :
    (∀ d, lookup d "engine" = none →
      VehicleBase.from_dict d = .error .structural) ∧
    (∀ d b, lookup d "transmission" = none →
      VehicleBase.from_dict d ≠ .ok b) ∧
    (∀ d b, lookup d "wheels" = none →
      VehicleBase.from_dict d ≠ .ok b) ∧
    (∀ d b, lookup d "model" = none →
      VehicleBase.from_dict d ≠ .ok b) ∧
    (∀ veh v, findChild veh "wheels" = none →
      decodeXmlVehicle veh ≠ .ok v) ∧
    (∀ veh v, decodeXmlVehicle veh = .ok v →
      findChild veh "model" = none → v.baseOf.model = "Unknown") := by
  refine ⟨?_, ?_, ?_, ?_, ?_, ?_⟩
  · intro d hnone
    unfold VehicleBase.from_dict getField
    rw [hnone]
    rfl
  · intro d b hnone hok
    unfold VehicleBase.from_dict at hok
    obtain ⟨eo, _, hok⟩ := bind_ok_inv hok
    obtain ⟨eng, _, hok⟩ := bind_ok_inv hok
    obtain ⟨tro, htro, hok⟩ := bind_ok_inv hok
    rw [getField_asObj_ok_inv htro] at hnone
    exact Option.noConfusion hnone
  · intro d b hnone hok
    unfold VehicleBase.from_dict at hok
    obtain ⟨eo, _, hok⟩ := bind_ok_inv hok
    obtain ⟨eng, _, hok⟩ := bind_ok_inv hok
    obtain ⟨tro, _, hok⟩ := bind_ok_inv hok
    obtain ⟨tr, _, hok⟩ := bind_ok_inv hok
    obtain ⟨wa, hwa, hok⟩ := bind_ok_inv hok
    rw [getField_asArr_ok_inv hwa] at hnone
    exact Option.noConfusion hnone
  · intro d b hnone hok
    unfold VehicleBase.from_dict at hok
    obtain ⟨eo, _, hok⟩ := bind_ok_inv hok
    obtain ⟨eng, _, hok⟩ := bind_ok_inv hok
    obtain ⟨tro, _, hok⟩ := bind_ok_inv hok
    obtain ⟨tr, _, hok⟩ := bind_ok_inv hok
    obtain ⟨wa, _, hok⟩ := bind_ok_inv hok
    obtain ⟨wheels, _, hok⟩ := bind_ok_inv hok
    obtain ⟨m, hm, hok⟩ := bind_ok_inv hok
    rw [getField_asStr_ok_inv hm] at hnone
    exact Option.noConfusion hnone
  · intro veh v hnone hok
    unfold decodeXmlVehicle at hok
    obtain ⟨p, _, hok⟩ := bind_ok_inv hok
    obtain ⟨eng, _, hok⟩ := bind_ok_inv hok
    obtain ⟨g, _, hok⟩ := bind_ok_inv hok
    obtain ⟨tr, _, hok⟩ := bind_ok_inv hok
    obtain ⟨ws, hws, hok⟩ := bind_ok_inv hok
    rw [readWheels_none hnone] at hws
    exact Except.noConfusion hws
  · intro veh v hok hnone
    unfold decodeXmlVehicle at hok
    obtain ⟨p, _, hok⟩ := bind_ok_inv hok
    obtain ⟨eng, _, hok⟩ := bind_ok_inv hok
    obtain ⟨g, _, hok⟩ := bind_ok_inv hok
    obtain ⟨tr, _, hok⟩ := bind_ok_inv hok
    obtain ⟨ws, _, hok⟩ := bind_ok_inv hok
    have hgoal : v.baseOf.model = findtext veh "model" "Unknown" := by
      split at hok
      · obtain ⟨s, _, hok⟩ := bind_ok_inv hok
        cases Except.ok.inj hok
        rfl
      split at hok
      · obtain ⟨s, _, hok⟩ := bind_ok_inv hok
        obtain ⟨bt, _, hok⟩ := bind_ok_inv hok
        cases Except.ok.inj hok
        rfl
      split at hok
      · obtain ⟨cap, _, hok⟩ := bind_ok_inv hok
        cases Except.ok.inj hok
        rfl
      split at hok
      · cases Except.ok.inj hok
        rfl
      · cases Except.ok.inj hok
        rfl
    rw [hgoal]
    unfold findtext
    rw [hnone]

/-- A concrete record mapping with no engine field. -/
def noEngineItem : List (String × JValue) :=
  [("type", .str "Vehicle"), ("model", .str "m"),
   ("transmission", .obj [("transmission_type", .str "t"), ("gears", .num 5)]),
   ("wheels", .arr [.obj [("size", .num 15)]])]

/-- Witness for C5 amended: the concrete record mapping with no engine
field fails with the structural missing-data error. -/
theorem mandatory_base_fields_w :
    VehicleBase.from_dict noEngineItem = .error .structural :=
  mandatory_base_fields.1 noEngineItem rfl

/-! ## C6 -/

/-- C6: record-format decode default-fills exactly the documented optional
variant fields when absent: seats 4 on Car, battery_capacity 0 on
ElectricCar, capacity 20 and double_decker false on Bus, moto_type
Unknown on Motorcycle. -/
theorem record_optional_defaults :
    (∀ d b s, lookup d "seats" = none →
      Car.from_dict d = .ok (b, s) → s = 4) ∧
    (∀ d b s bc, lookup d "battery_capacity" = none →
      ElectricCar.from_dict d = .ok (b, s, bc) → bc = 0) ∧
    (∀ d b c dd, lookup d "capacity" = none →
      Bus.from_dict d = .ok (b, c, dd) → c = 20) ∧
    (∀ d b c dd, lookup d "double_decker" = none →
      Bus.from_dict d = .ok (b, c, dd) → dd = false) ∧
    (∀ d b mt, lookup d "moto_type" = none →
      Motorcycle.from_dict d = .ok (b, mt) → mt = "Unknown") := by
  refine ⟨?_, ?_, ?_, ?_, ?_⟩
  · intro d b s hnone hok
    unfold Car.from_dict at hok
    rw [getNumOr_none hnone] at hok
    cases hv : VehicleBase.from_dict d <;> rw [hv] at hok <;> simp_all
  · intro d b s bc hnone hok
    unfold ElectricCar.from_dict at hok
    rw [getNumOr_none hnone] at hok
    cases hv : Car.from_dict d <;> rw [hv] at hok <;> simp_all
  · intro d b c dd hnone hok
    unfold Bus.from_dict at hok
    rw [getNumOr_none hnone] at hok
    cases hv : VehicleBase.from_dict d <;> rw [hv] at hok <;>
      [skip; cases hd : getBoolOr d "double_decker" false] <;>
      simp_all
  · intro d b c dd hnone hok
    unfold Bus.from_dict at hok
    rw [getBoolOr_none hnone] at hok
    cases hv : VehicleBase.from_dict d <;> rw [hv] at hok <;>
      [skip; cases hc : getNumOr d "capacity" 20] <;>
      simp_all
  · intro d b mt hnone hok
    unfold Motorcycle.from_dict at hok
    rw [getStrOr_none hnone] at hok
    cases hv : VehicleBase.from_dict d <;> rw [hv] at hok <;> simp_all

/-- A concrete Car mapping without a seats field. -/
def carNoSeats : List (String × JValue) :=
  [("type", .str "Car"), ("model", .str "m"),
   ("engine", .obj [("engine_type", .str "e"), ("power", .num 100)]),
   ("transmission", .obj [("transmission_type", .str "t"), ("gears", .num 5)]),
   ("wheels", .arr [.obj [("size", .num 15)]])]

/-- The base fields decoded from carNoSeats. -/
def carNoSeatsBase : VehicleBase := ⟨"m", ⟨"e", 100⟩, ⟨"t", 5⟩, [⟨15⟩]⟩

/-- Witness for C6: the concrete Car mapping without a seats field decodes
with seats = 4. -/
theorem record_optional_defaults_w :
    (4 : ℚ) = 4 ∧ Car.from_dict carNoSeats = .ok (carNoSeatsBase, 4) :=
  ⟨record_optional_defaults.1 carNoSeats carNoSeatsBase 4 rfl rfl, rfl⟩

/-! ## C8 -/

/-- C8: an entry whose discriminant tag matches no known variant decodes
as the base Vehicle variant, and a record mapping with no type field is
dispatched as if its tag were Vehicle. -/
theorem unknown_tag_base_vehicle :
    (∀ d, lookup d "type" = none →
      decodeItem d = (VehicleBase.from_dict d).map .base) ∧
    (∀ d s, lookup d "type" = some (.str s) →
      s ∉ (["Car", "ElectricCar", "Bus", "Motorcycle"] : List String) →
      decodeItem d = (VehicleBase.from_dict d).map .base) ∧
    (∀ veh v, veh.tag ∉ (["Car", "ElectricCar", "Bus", "Motorcycle"] : List String) →
      decodeXmlVehicle veh = .ok v → ∃ b, v = .base b) := by
  refine ⟨?_, ?_, ?_⟩
  · intro d hnone
    unfold decodeItem
    rw [hnone]
    simp only [Option.getD, eqStr]
    norm_num
    cases hv : VehicleBase.from_dict d <;> simp [hv]
  · intro d s hsome hmem
    simp only [List.mem_cons, List.not_mem_nil, or_false, not_or] at hmem
    obtain ⟨h1, h2, h3, h4⟩ := hmem
    unfold decodeItem
    rw [hsome]
    simp only [Option.getD, eqStr, h1, h2, h3, h4, beq_iff_eq, if_false]
    cases hv : VehicleBase.from_dict d <;> simp [hv]
  · intro veh v hmem hok
    simp only [List.mem_cons, List.not_mem_nil, or_false, not_or] at hmem
    obtain ⟨h1, h2, h3, h4⟩ := hmem
    unfold decodeXmlVehicle at hok
    obtain ⟨p, _, hok⟩ := bind_ok_inv hok
    obtain ⟨eng, _, hok⟩ := bind_ok_inv hok
    obtain ⟨g, _, hok⟩ := bind_ok_inv hok
    obtain ⟨tr, _, hok⟩ := bind_ok_inv hok
    obtain ⟨ws, _, hok⟩ := bind_ok_inv hok
    rw [if_neg h1, if_neg h2, if_neg h3, if_neg h4] at hok
    exact ⟨_, (Except.ok.inj hok).symm⟩

/-- A concrete mapping with an unrecognized tag. -/
def truckItem : List (String × JValue) :=
  [("type", .str "Truck"), ("model", .str "m"),
   ("engine", .obj [("engine_type", .str "e"), ("power", .num 100)]),
   ("transmission", .obj [("transmission_type", .str "t"), ("gears", .num 5)]),
   ("wheels", .arr [.obj [("size", .num 15)]])]

/-- Witness for C8: the concrete unrecognized-tag mapping dispatches to
the base variant decode. -/
theorem unknown_tag_base_vehicle_w :
    decodeItem truckItem = (VehicleBase.from_dict truckItem).map .base :=
  unknown_tag_base_vehicle.2.1 truckItem "Truck" rfl (by simp)

/-! ## C7 -/

/-- A concrete Bus element whose double_decker child carries the given
text; none leaves the node out entirely. -/
def busElem (dd : Option String) : XElem :=
  .mk "Bus" none
    ([.mk "model" (some "B1") [],
      .mk "engine" none [.mk "type" (some "Diesel") [], .mk "power" (some "300") []],
      .mk "transmission" none [.mk "type" (some "Manual") [], .mk "gears" (some "6") []],
      .mk "wheels" none [.mk "wheel" (some "22") [], .mk "wheel" (some "22") []]]
     ++ (match dd with | none => [] | some t => [.mk "double_decker" (some t) []]))

/-- The vehicle busElem decodes to, for a given double_decker value. -/
def busVal (dd : Bool) : Vehicle :=
  .bus ⟨"B1", ⟨"Diesel", 300⟩, ⟨"Manual", 6⟩, [⟨22⟩, ⟨22⟩]⟩ 20 dd

/-- C7: markup decode of double_decker is asymmetric: the decoded flag is
true exactly when the node text is the literal True; False, false, the
empty string, no, and an absent node all decode to false. -/
theorem double_decker_asymmetric :
    (∀ veh b c dd, decodeXmlVehicle veh = .ok (.bus b c dd) →
      dd = (findtext veh "double_decker" "False" == "True")) ∧
    decodeXmlVehicle (busElem (some "True")) = .ok (busVal true) ∧
    decodeXmlVehicle (busElem (some "False")) = .ok (busVal false) ∧
    decodeXmlVehicle (busElem (some "false")) = .ok (busVal false) ∧
    decodeXmlVehicle (busElem (some "")) = .ok (busVal false) ∧
    decodeXmlVehicle (busElem (some "no")) = .ok (busVal false) ∧
    decodeXmlVehicle (busElem none) = .ok (busVal false) := by
  refine ⟨?_, by decide, by decide, by decide, by decide, by decide, by decide⟩
  intro veh b c dd hok
  unfold decodeXmlVehicle at hok
  obtain ⟨p, _, hok⟩ := bind_ok_inv hok
  obtain ⟨eng, _, hok⟩ := bind_ok_inv hok
  obtain ⟨g, _, hok⟩ := bind_ok_inv hok
  obtain ⟨tr, _, hok⟩ := bind_ok_inv hok
  obtain ⟨ws, _, hok⟩ := bind_ok_inv hok
  split at hok
  · obtain ⟨s, _, hok⟩ := bind_ok_inv hok
    exact absurd (Except.ok.inj hok) (by simp)
  · split at hok
    · obtain ⟨s, _, hok⟩ := bind_ok_inv hok
      obtain ⟨bt, _, hok⟩ := bind_ok_inv hok
      exact absurd (Except.ok.inj hok) (by simp)
    · split at hok
      · obtain ⟨cap, _, hok⟩ := bind_ok_inv hok
        have := Except.ok.inj hok
        cases this
        rfl
      · split at hok
        · exact absurd (Except.ok.inj hok) (by simp)
        · exact absurd (Except.ok.inj hok) (by simp)

/-- Witness for C7: the asymmetry read off the concrete element whose
double_decker text is True. -/
theorem double_decker_asymmetric_w :
    true = (findtext (busElem (some "True")) "double_decker" "False" == "True") :=
  double_decker_asymmetric.1 (busElem (some "True"))
    ⟨"B1", ⟨"Diesel", 300⟩, ⟨"Manual", 6⟩, [⟨22⟩, ⟨22⟩]⟩ 20 true (by decide)

/-! ## C9 -/

/-- C9: loading from a nonexistent source file, in either format, does not
raise: the store is replaced with the empty collection. -/
theorem load_missing_file_empty :
    load_json none = .ok ([] : List Vehicle) ∧
    load_xml none = .ok ([] : List Vehicle) :=
  ⟨rfl, rfl⟩

/-! ## C10 -/

theorem engine_from_dict_valid {eo : List (String × JValue)} {e : Engine}
    (h : Engine.from_dict eo = .ok e) : 0 < e.power := by
  unfold Engine.from_dict at h
  obtain ⟨t, _, h⟩ := bind_ok_inv h
  obtain ⟨p, _, h⟩ := bind_ok_inv h
  obtain ⟨_, hp, hpos⟩ := engineInit_ok_inv h
  rw [hp]
  exact hpos

theorem transmission_from_dict_valid {tro : List (String × JValue)} {tr : Transmission}
    (h : Transmission.from_dict tro = .ok tr) : 0 < tr.gears := by
  unfold Transmission.from_dict at h
  obtain ⟨t, _, h⟩ := bind_ok_inv h
  obtain ⟨g, _, h⟩ := bind_ok_inv h
  obtain ⟨_, hg, hpos⟩ := transmissionInit_ok_inv h
  rw [hg]
  exact hpos

theorem wheelItem_ok_valid {x : JValue} {w : Wheel}
    (h : (asObj x >>= Wheel.from_dict) = .ok w) : 10 ≤ w.size := by
  obtain ⟨wo, _, h⟩ := bind_ok_inv h
  unfold Wheel.from_dict at h
  obtain ⟨s, _, h⟩ := bind_ok_inv h
  obtain ⟨hs, hge⟩ := wheelInit_ok_inv h
  rw [hs]
  exact hge

theorem base_from_dict_valid {d : List (String × JValue)} {b : VehicleBase}
    (h : VehicleBase.from_dict d = .ok b) : ValidBase b := by
  unfold VehicleBase.from_dict at h
  obtain ⟨eo, _, h⟩ := bind_ok_inv h
  obtain ⟨eng, heng, h⟩ := bind_ok_inv h
  obtain ⟨tro, _, h⟩ := bind_ok_inv h
  obtain ⟨tr, htr, h⟩ := bind_ok_inv h
  obtain ⟨wa, _, h⟩ := bind_ok_inv h
  obtain ⟨wheels, hwh, h⟩ := bind_ok_inv h
  obtain ⟨m, _, h⟩ := bind_ok_inv h
  cases Except.ok.inj h
  refine ⟨engine_from_dict_valid heng, transmission_from_dict_valid htr, ?_⟩
  intro w hw
  obtain ⟨x, _, hx⟩ := mapM_ok_mem hwh w hw
  exact wheelItem_ok_valid hx

theorem car_from_dict_ok_inv {d : List (String × JValue)} {b : VehicleBase} {s : ℚ}
    (h : Car.from_dict d = .ok (b, s)) : VehicleBase.from_dict d = .ok b := by
  unfold Car.from_dict at h
  obtain ⟨b₁, hb, h⟩ := bind_ok_inv h
  obtain ⟨s₁, _, h⟩ := bind_ok_inv h
  cases Except.ok.inj h
  exact hb

theorem electricCar_from_dict_ok_inv {d : List (String × JValue)} {b : VehicleBase}
    {s bc : ℚ} (h : ElectricCar.from_dict d = .ok (b, s, bc)) :
    VehicleBase.from_dict d = .ok b := by
  unfold ElectricCar.from_dict at h
  obtain ⟨⟨b₁, s₁⟩, hb, h⟩ := bind_ok_inv h
  obtain ⟨bc₁, _, h⟩ := bind_ok_inv h
  cases Except.ok.inj h
  exact car_from_dict_ok_inv hb

theorem bus_from_dict_ok_inv {d : List (String × JValue)} {b : VehicleBase}
    {c : ℚ} {dd : Bool} (h : Bus.from_dict d = .ok (b, c, dd)) :
    VehicleBase.from_dict d = .ok b := by
  unfold Bus.from_dict at h
  obtain ⟨b₁, hb, h⟩ := bind_ok_inv h
  obtain ⟨c₁, _, h⟩ := bind_ok_inv h
  obtain ⟨dd₁, _, h⟩ := bind_ok_inv h
  cases Except.ok.inj h
  exact hb

theorem motorcycle_from_dict_ok_inv {d : List (String × JValue)} {b : VehicleBase}
    {mt : String} (h : Motorcycle.from_dict d = .ok (b, mt)) :
    VehicleBase.from_dict d = .ok b := by
  unfold Motorcycle.from_dict at h
  obtain ⟨b₁, hb, h⟩ := bind_ok_inv h
  obtain ⟨mt₁, _, h⟩ := bind_ok_inv h
  cases Except.ok.inj h
  exact hb

theorem decodeItem_ok_valid {d : List (String × JValue)} {v : Vehicle}
    (h : decodeItem d = .ok v) : ValidVehicle v := by
  simp only [decodeItem] at h
  split at h
  · obtain ⟨⟨b, s⟩, hb, h⟩ := bind_ok_inv h
    cases Except.ok.inj h
    exact base_from_dict_valid (car_from_dict_ok_inv hb)
  split at h
  · obtain ⟨⟨b, s, bc⟩, hb, h⟩ := bind_ok_inv h
    cases Except.ok.inj h
    exact base_from_dict_valid (electricCar_from_dict_ok_inv hb)
  split at h
  · obtain ⟨⟨b, c, dd⟩, hb, h⟩ := bind_ok_inv h
    cases Except.ok.inj h
    exact base_from_dict_valid (bus_from_dict_ok_inv hb)
  split at h
  · obtain ⟨⟨b, mt⟩, hb, h⟩ := bind_ok_inv h
    cases Except.ok.inj h
    exact base_from_dict_valid (motorcycle_from_dict_ok_inv hb)
  · obtain ⟨b, hb, h⟩ := bind_ok_inv h
    cases Except.ok.inj h
    exact base_from_dict_valid hb

theorem readWheels_valid {veh : XElem} {ws : List Wheel}
    (h : readWheels veh = .ok ws) : ∀ w ∈ ws, 10 ≤ w.size := by
  unfold readWheels at h
  cases hf : findChild veh "wheels" with
  | none =>
    rw [hf] at h
    exact Except.noConfusion h
  | some wsElem =>
    rw [hf] at h
    intro w hw
    obtain ⟨x, _, hx⟩ := mapM_ok_mem h w hw
    cases ht : x.text with
    | none =>
      rw [ht] at hx
      exact Except.noConfusion hx
    | some t =>
      rw [ht] at hx
      obtain ⟨n, _, hx⟩ := bind_ok_inv hx
      obtain ⟨hs, hge⟩ := wheelInit_ok_inv hx
      rw [hs]
      exact hge

theorem decodeXml_ok_valid {veh : XElem} {v : Vehicle}
    (h : decodeXmlVehicle veh = .ok v) : ValidVehicle v := by
  unfold decodeXmlVehicle at h
  obtain ⟨p, _, h⟩ := bind_ok_inv h
  obtain ⟨eng, heng, h⟩ := bind_ok_inv h
  obtain ⟨g, _, h⟩ := bind_ok_inv h
  obtain ⟨tr, htr, h⟩ := bind_ok_inv h
  obtain ⟨ws, hws, h⟩ := bind_ok_inv h
  have hbase : ValidBase ⟨findtext veh "model" "Unknown", eng, tr, ws⟩ := by
    refine ⟨?_, ?_, ?_⟩
    · show 0 < eng.power
      obtain ⟨_, hp, hpos⟩ := engineInit_ok_inv heng
      rw [hp]
      exact hpos
    · show 0 < tr.gears
      obtain ⟨_, hg, hpos⟩ := transmissionInit_ok_inv htr
      rw [hg]
      exact hpos
    · exact readWheels_valid hws
  split at h
  · obtain ⟨s, _, h⟩ := bind_ok_inv h
    cases Except.ok.inj h
    exact hbase
  split at h
  · obtain ⟨s, _, h⟩ := bind_ok_inv h
    obtain ⟨bt, _, h⟩ := bind_ok_inv h
    cases Except.ok.inj h
    exact hbase
  split at h
  · obtain ⟨cap, _, h⟩ := bind_ok_inv h
    cases Except.ok.inj h
    exact hbase
  split at h
  · cases Except.ok.inj h
    exact hbase
  · cases Except.ok.inj h
    exact hbase

theorem load_json_ok_valid {input : Option (List JValue)} {vs : List Vehicle}
    (h : load_json input = .ok vs) : ∀ v ∈ vs, ValidVehicle v := by
  cases input with
  | none =>
    cases Except.ok.inj h
    intro v hv
    exact absurd hv (List.not_mem_nil v)
  | some data =>
    intro v hv
    obtain ⟨item, _, hitem⟩ := mapM_ok_mem h v hv
    obtain ⟨o, _, hdec⟩ := bind_ok_inv hitem
    exact decodeItem_ok_valid hdec

theorem load_xml_ok_valid {input : Option XElem} {vs : List Vehicle}
    (h : load_xml input = .ok vs) : ∀ v ∈ vs, ValidVehicle v := by
  cases input with
  | none =>
    cases Except.ok.inj h
    intro v hv
    exact absurd hv (List.not_mem_nil v)
  | some root =>
    intro v hv
    obtain ⟨veh, _, hveh⟩ := mapM_ok_mem h v hv
    exact decodeXml_ok_valid hveh

/-- A vehicle whose sub-parts were produced by the validating
constructors, the only way the program ever builds them. -/
def PartsConstructed (v : Vehicle) : Prop :=
  (∃ t p, Engine.init t p = .ok v.baseOf.engine) ∧
  (∃ t g, Transmission.init t g = .ok v.baseOf.transmission) ∧
  (∀ w ∈ v.baseOf.wheels, ∃ s, Wheel.init s = .ok w)

/-- The store states reachable through the program's operations: the
fresh empty store, append of a constructed vehicle, and wholesale
replacement by load_json or load_xml (the missing-file recovery included
through the none input). -/
inductive Reachable : List Vehicle → Prop where
  | init : Reachable []
  | add (s : List Vehicle) (v : Vehicle) :
      Reachable s → PartsConstructed v → Reachable (s ++ [v])
  | loadJson (s : List Vehicle) (input : Option (List JValue)) (vs : List Vehicle) :
      Reachable s → load_json input = .ok vs → Reachable vs
  | loadXml (s : List Vehicle) (input : Option XElem) (vs : List Vehicle) :
      Reachable s → load_xml input = .ok vs → Reachable vs

theorem partsConstructed_valid {v : Vehicle} (h : PartsConstructed v) :
    ValidVehicle v := by
  obtain ⟨⟨t, p, he⟩, ⟨t₁, g, ht⟩, hw⟩ := h
  refine ⟨?_, ?_, ?_⟩
  · obtain ⟨_, hp, hpos⟩ := engineInit_ok_inv he
    rw [hp]
    exact hpos
  · obtain ⟨_, hg, hpos⟩ := transmissionInit_ok_inv ht
    rw [hg]
    exact hpos
  · intro w hw₁
    obtain ⟨s, hs⟩ := hw w hw₁
    obtain ⟨hsz, hge⟩ := wheelInit_ok_inv hs
    rw [hsz]
    exact hge

/-- C10: every vehicle in any store state reachable through construction,
add, load_json and load_xml satisfies the value-type invariants of its
parts: positive engine power, positive gear count, every wheel size at
least 10. -/
theorem store_invariant (s : List Vehicle) (h : Reachable s) :
    ∀ v ∈ s, ValidVehicle v := by
  induction h with
  | init =>
    intro v hv
    exact absurd hv (List.not_mem_nil v)
  | add s v₁ _ hc ih =>
    intro v hv
    rcases List.mem_append.mp hv with hv | hv
    · exact ih v hv
    · rcases List.mem_singleton.mp hv with rfl
      exact partsConstructed_valid hc
  | loadJson s input vs _ hload ih => exact load_json_ok_valid hload
  | loadXml s input vs _ hload ih => exact load_xml_ok_valid hload

/-- Witness for C10: the concrete store holding the example ElectricCar,
reached by appending it to the empty store, satisfies the invariant. -/
theorem store_invariant_w : ValidVehicle tesla :=
  store_invariant ([] ++ [tesla])
    (Reachable.add [] tesla Reachable.init
      ⟨⟨"Electric", 200, by decide⟩, ⟨"Automatic", 1, by decide⟩, by
        intro w hw
        refine ⟨19, ?_⟩
        have hw19 : w = Wheel.mk 19 := by
          rcases List.mem_cons.mp hw with rfl | hw
          · rfl
          rcases List.mem_cons.mp hw with rfl | hw
          · rfl
          rcases List.mem_cons.mp hw with rfl | hw
          · rfl
          rcases List.mem_cons.mp hw with rfl | hw
          · rfl
          · exact absurd hw (List.not_mem_nil w)
        rw [hw19]
        decide⟩)
    tesla (by decide)

end Lab1
